import Mathlib

/-!
Verification development for the solana-quic-client repository.

Shallow embedding of the four source files:
  src/leader_tracker.rs : slot clock, schedule cache, leader window selection
  src/quic_manager.rs   : transaction submission and confirmation polling
  src/config.rs         : configuration and transaction construction
  src/main.rs           : orchestrator retry loop

Machine integers (u64 slots) are modelled as Nat with explicit reduction
modulo 2 ^ 64 where the source performs u64 arithmetic.  External
collaborators (the RPC client, the websocket feed, the QUIC transport,
keypair decoding and Ed25519 signing) are modelled at their interface, as
explicit per-call result values.  Concurrency is modelled by making each
background task's body a pure state-transition function on the shared
state it mutates.
-/

/-! ## Data model -/

abbrev Slot := Nat

abbrev Pubkey := String

/-- A network address, modelled opaquely (solana_sdk SocketAddr). -/
abbrev NetAddr := String

/-- solana_client RpcContactInfo, restricted to the two fields this
program reads: the validator identity and its QUIC ingestion address. -/
structure RpcContactInfo where
  pubkey : Pubkey
  tpu_quic : Option NetAddr
deriving DecidableEq, Repr

/-- A recent blockhash (solana_sdk Hash), modelled opaquely. -/
abbrev BlockHash := Nat

/-- An Ed25519 transaction signature.  A real signature is a function of
the signing keypair and the signed message bytes; the message embeds the
recent blockhash.  It is modelled as that pair, which is injective in the
blockhash for a fixed signer, mirroring that distinct signed messages
yield distinct signatures. -/
structure TxSignature where
  signer : Pubkey
  message_blockhash : BlockHash
deriving DecidableEq, Repr

/-! ## Slot clock (src/leader_tracker.rs, start_websocket_listener) -/

/-- The body of the websocket slot-update handler
(leader_tracker.rs line 92): each received slot value is stored into the
clock unconditionally, with no comparison against the current value. -/
def applySlotUpdate (_cur : Nat) (received : Nat) : Nat := received

/-- The slot clock after a sequence of subscription updates has been
delivered to the listener, starting from an initial clock value. -/
def runSlotUpdates (init : Nat) (updates : List Nat) : Nat :=
  updates.foldl applySlotUpdate init

/-! ## Schedule cache (src/leader_tracker.rs) -/

/-- The cur_leaders DashMap, modelled as an association list from slot to
contact info.  Keys are unique under the map operations below. -/
abbrev LeaderMap := List (Slot × RpcContactInfo)

/-- DashMap lookup by slot key. -/
def dashGet : LeaderMap → Slot → Option RpcContactInfo
  | [], _ => none
  | e :: rest, s => if e.1 = s then some e.2 else dashGet rest s

/-- DashMap insert: overwrites the value if the key is present, otherwise
adds a new entry. -/
def dashInsert : LeaderMap → Slot → RpcContactInfo → LeaderMap
  | [], s, c => [(s, c)]
  | e :: rest, s, c => if e.1 = s then (s, c) :: rest else e :: dashInsert rest s c

/-- DashMap remove by slot key. -/
def dashRemove (m : LeaderMap) (s : Slot) : LeaderMap :=
  m.filter (fun e => decide (e.1 ≠ s))

/-- clean_up_slot_leaders (leader_tracker.rs lines 152-164): collect every
key strictly below the current slot, then remove each collected key. -/
def clean_up_slot_leaders (m : LeaderMap) (cur_slot : Slot) : LeaderMap :=
  let slots_to_remove := (m.filter (fun e => decide (e.1 < cur_slot))).map Prod.fst
  slots_to_remove.foldl dashRemove m

/-- The HashMap built in poll_slot_leaders_once from get_cluster_nodes,
keyed by pubkey; collecting into a HashMap lets a later duplicate pubkey
overwrite an earlier one, so lookup returns the last matching node. -/
def cluster_node_get (nodes : List RpcContactInfo) (pk : Pubkey) : Option RpcContactInfo :=
  (nodes.filter (fun n => decide (n.pubkey = pk))).getLast?

/-- The insertion loop of poll_slot_leaders_once (lines 139-146): for the
i-th returned slot leader, if its contact info is in the cluster node map,
insert it at key next_slot + i; otherwise it is only logged. -/
def insertLeaders (m : LeaderMap) (next_slot : Slot) (slot_leaders : List Pubkey)
    (nodes : List RpcContactInfo) : LeaderMap :=
  slot_leaders.enum.foldl
    (fun acc p =>
      match cluster_node_get nodes p.2 with
      | some contact_info => dashInsert acc (next_slot + p.1) contact_info
      | none => acc)
    m

/-- The tracker's shared state: the slot clock, the schedule cache, and
the two configuration fields fixed at construction. -/
structure TrackerState where
  curSlot : Nat
  curLeaders : LeaderMap
  numLeaders : Nat
  leaderOffset : Int
deriving DecidableEq, Repr

/-- The RPC responses consumed by one run of poll_slot_leaders_once. -/
structure RpcSnapshot where
  slot_leaders : Except String (List Pubkey)
  cluster_nodes : Except String (List RpcContactInfo)
deriving Repr

/-- poll_slot_leaders_once (leader_tracker.rs lines 118-150): read the
clock, fetch the next 1000 slot leaders and the cluster node directory
(either fetch failing aborts with an error), join them by pubkey into the
cache, then purge stale entries. -/
def poll_slot_leaders_once (st : TrackerState) (rpc : RpcSnapshot) :
    Except String TrackerState :=
  match rpc.slot_leaders with
  | Except.error e => Except.error ("Error getting slot leaders: " ++ e)
  | Except.ok slot_leaders =>
    match rpc.cluster_nodes with
    | Except.error e => Except.error ("Error getting cluster nodes: " ++ e)
    | Except.ok nodes =>
      let filled := insertLeaders st.curLeaders st.curSlot slot_leaders nodes
      Except.ok { st with curLeaders := clean_up_slot_leaders filled st.curSlot }

/-! ## Leader window selection (src/leader_tracker.rs, get_leaders) -/

def NUM_LEADERS_PER_SLOT : Nat := 4

/-- Size of the u64 value space. -/
def U64 : Nat := 2 ^ 64

/-- The `as u64` cast applied to the i64 leader_offset. -/
def i64ToU64 (x : Int) : Nat := (x % (2 ^ 64 : Int)).toNat

/-- start_slot of get_leaders (line 169): the clock plus the offset, in
u64 arithmetic. -/
def startSlot (st : TrackerState) : Nat :=
  (st.curSlot + i64ToU64 st.leaderOffset) % U64

/-- end_slot of get_leaders (line 170). -/
def endSlot (st : TrackerState) : Nat :=
  (startSlot st + st.numLeaders * NUM_LEADERS_PER_SLOT) % U64

/-- The slots visited by the loop `for slot in start_slot..end_slot`:
empty when end_slot does not exceed start_slot. -/
def scanSlots (st : TrackerState) : List Slot :=
  List.range' (startSlot st) (endSlot st - startSlot st)

/-- The IndexMap accumulated by get_leaders: insertion-ordered map from
pubkey to contact info. -/
abbrev IMap := List (Pubkey × RpcContactInfo)

/-- IndexMap insert: an existing key keeps its original position and has
its value overwritten; a new key is appended at the end. -/
def imapInsert : IMap → Pubkey → RpcContactInfo → IMap
  | [], k, v => [(k, v)]
  | e :: rest, k, v => if e.1 = k then (k, v) :: rest else e :: imapInsert rest k v

/-- One iteration of the get_leaders scan: look the slot up in the cache
and, on a hit, insert the contact under its pubkey. -/
def stepAcc (m : LeaderMap) (s : Slot) (acc : IMap) : IMap :=
  match dashGet m s with
  | some leader => imapInsert acc leader.pubkey leader
  | none => acc

/-- The get_leaders scan loop (lines 173-180): after each slot, stop as
soon as the map holds num_leaders entries. -/
def getLeadersLoop (m : LeaderMap) (n : Nat) : List Slot → IMap → IMap
  | [], acc => acc
  | s :: rest, acc =>
    if n ≤ (stepAcc m s acc).length then stepAcc m s acc
    else getLeadersLoop m n rest (stepAcc m s acc)

/-- get_leaders (leader_tracker.rs lines 168-189): scan the slot range,
then return the accumulated values in insertion order. -/
def get_leaders (st : TrackerState) : List RpcContactInfo :=
  (getLeadersLoop st.curLeaders st.numLeaders (scanSlots st) []).map Prod.snd

/-- Specification-side view of the scan: the pubkeys of the cache hits in
slot order. -/
def scanPubkeys (m : LeaderMap) (slots : List Slot) : List Pubkey :=
  slots.filterMap (fun s => (dashGet m s).map (fun c => c.pubkey))

/-- Specification-side deduplication keeping first occurrences, seeded
with the keys already collected. -/
def dedupAcc : List Pubkey → List Pubkey → List Pubkey
  | ks, [] => ks
  | ks, p :: rest => if p ∈ ks then dedupAcc ks rest else dedupAcc (ks ++ [p]) rest

/-! ## Tracker construction (src/leader_tracker.rs, new) -/

/-- The initial clock value in LeaderTrackerImpl::new (lines 44-45):
rpc_client.get_slot().await.unwrap_or(0). -/
def initialSlot (rpc_get_slot : Except String Nat) : Nat :=
  match rpc_get_slot with
  | Except.ok s => s
  | Except.error _ => 0

/-- LeaderTrackerImpl::new (lines 36-57): store the initial slot (0 on
query failure) and start with an empty schedule cache. -/
def newTracker (rpc_get_slot : Except String Nat) (num_leaders : Nat)
    (leader_offset : Int) : TrackerState :=
  { curSlot := initialSlot rpc_get_slot
    curLeaders := []
    numLeaders := num_leaders
    leaderOffset := leader_offset }

/-! ## Configuration and transaction construction (src/config.rs) -/

inductive Network where
  | mainnet
  | devnet
  | heliosMainnet
deriving DecidableEq, Repr

structure Config where
  sender_key : String
  receiver_key : String
  amount : Nat
  retry : Nat
  network : Network
deriving DecidableEq, Repr

/-- setup_sender (config.rs lines 69-77) decodes a keypair from base58 or
from a keypair file depending on the network.  Keypair decoding is
external; the keypair is modelled by the configured key string that
identifies it. -/
def setup_sender (cfg : Config) : Pubkey :=
  match cfg.network with
  | Network.mainnet => cfg.sender_key
  | Network.heliosMainnet => cfg.sender_key
  | Network.devnet => cfg.sender_key

/-- setup_receiver (config.rs lines 79-87), modelled like setup_sender. -/
def setup_receiver (cfg : Config) : Pubkey :=
  match cfg.network with
  | Network.mainnet => cfg.receiver_key
  | Network.heliosMainnet => cfg.receiver_key
  | Network.devnet => cfg.receiver_key

inductive Instruction where
  | setComputeUnitLimit (limit : Nat)
  | setComputeUnitPrice (price : Nat)
  | transfer (sender receiver : Pubkey) (amount : Nat)
deriving DecidableEq, Repr

structure Transaction where
  instructions : List Instruction
  payer : Pubkey
  recent_blockhash : BlockHash
  signatures : List TxSignature
deriving DecidableEq, Repr

/-- create_transaction (config.rs lines 89-110): a compute-unit limit of
50000, a compute-unit price of 10000, the transfer instruction, paid and
solely signed by the sender against the given blockhash.  Signing
(Transaction::new_signed_with_payer) is external; the single signature is
modelled as the (signer, blockhash) pair. -/
def create_transaction (cfg : Config) (blockhash : BlockHash) : Transaction :=
  { instructions :=
      [Instruction.setComputeUnitLimit 50000,
       Instruction.setComputeUnitPrice 10000,
       Instruction.transfer (setup_sender cfg) (setup_receiver cfg) cfg.amount]
    payer := setup_sender cfg
    recent_blockhash := blockhash
    signatures := [{ signer := setup_sender cfg, message_blockhash := blockhash }] }

/-! ## Submission (src/quic_manager.rs, send_transaction) -/

/-- Outcome of the QUIC send_data call wrapped in its 60-second timeout. -/
inductive SendOutcome where
  | sent
  | sendError (e : String)
  | timedOut
deriving DecidableEq, Repr

/-- send_transaction (quic_manager.rs lines 37-96) with its degenerate
max_attempts = 1 loop: fetch a fresh blockhash (failure aborts), build and
sign the transaction from it, send with a timeout; on success return the
first signature of the signed transaction, otherwise fall through to the
terminal error. -/
def send_transaction (cfg : Config) (latest_blockhash : Except String BlockHash)
    (outcome : SendOutcome) : Except String TxSignature :=
  match latest_blockhash with
  | Except.error e => Except.error ("Failed to get blockhash: " ++ e)
  | Except.ok blockhash =>
    let transaction := create_transaction cfg blockhash
    match outcome with
    | SendOutcome.sent =>
      match transaction.signatures.head? with
      | some signature => Except.ok signature
      | none => Except.error "No signature found in the transaction"
    | _ => Except.error "Failed to send transaction via QUIC after multiple attempts"

/-! ## Confirmation polling (src/quic_manager.rs, check_confirm_transaction) -/

/-- The TransactionStatus field read by the poller. -/
structure TransactionStatus where
  confirmations : Option Nat
deriving DecidableEq, Repr

/-- One get_signature_statuses response: an RPC error, or the vector of
per-signature statuses (None when the transaction is not yet visible). -/
inductive StatusResponse where
  | rpcError (e : String)
  | ok (value : List (Option TransactionStatus))
deriving DecidableEq, Repr

/-- The polling loop of check_confirm_transaction (quic_manager.rs lines
108-125), with the poll index and the seconds slept so far made explicit.
An RPC failure propagates as an error; a visible status with a present
confirmation count returns Ok(true) immediately; any other response
sleeps 2 seconds and polls again; exhausting the attempts yields the
timeout error. -/
def check_confirm_loop (responses : Nat → StatusResponse) :
    Nat → Nat → Nat → Except String Bool × Nat
  | 0, _, slept => (Except.error "Transaction failed to confirm", slept)
  | fuel + 1, i, slept =>
    match responses i with
    | StatusResponse.rpcError e =>
      (Except.error ("Failed to get signature statuses: " ++ e), slept)
    | StatusResponse.ok value =>
      match value.head? with
      | some (some status) =>
        if status.confirmations.isSome then (Except.ok true, slept)
        else check_confirm_loop responses fuel (i + 1) (slept + 2)
      | _ => check_confirm_loop responses fuel (i + 1) (slept + 2)

/-- check_confirm_transaction (quic_manager.rs lines 98-128): the initial
informational get_transaction call has no effect on the result and is
omitted; then up to max_attempts = 10 polls.  Returns the result paired
with the total seconds slept. -/
def check_confirm_transaction (responses : Nat → StatusResponse) :
    Except String Bool × Nat :=
  check_confirm_loop responses 10 0 0

/-- A response on which the loop keeps polling: a successful status query
whose first entry is absent or carries no confirmation count. -/
def keepPollingB : StatusResponse → Bool
  | StatusResponse.rpcError _ => false
  | StatusResponse.ok value =>
    match value.head? with
    | some (some status) => status.confirmations.isNone
    | _ => true

/-- A response on which the loop succeeds: a visible status with a
present confirmation count. -/
def confirmedB : StatusResponse → Bool
  | StatusResponse.rpcError _ => false
  | StatusResponse.ok value =>
    match value.head? with
    | some (some status) => status.confirmations.isSome
    | _ => false

/-- Detects the Ok(false) payload that check_confirm_transaction is
claimed never to produce. -/
def is_ok_false : Except String Bool → Bool
  | Except.ok false => true
  | _ => false

/-! ## Orchestrator loop (src/main.rs) -/

/-- The external world as seen by one iteration of the main retry loop:
the shared tracker state at the moment get_leaders is called, the
blockhash fetch result, the QUIC send outcome, and the status-query
responses the confirmation poller will see. -/
structure IterEnv where
  tracker : TrackerState
  latest_blockhash : Except String BlockHash
  sendOutcome : SendOutcome
  statusResponses : Nat → StatusResponse

/-- What one iteration of the main loop did. -/
inductive IterOutcome where
  | noLeader
  | noQuic (leader : RpcContactInfo)
  | sendFailed (leader : RpcContactInfo) (e : String)
  | confirmFailed (leader : RpcContactInfo) (e : String)
  | success (leader : RpcContactInfo) (sig : TxSignature)
deriving DecidableEq, Repr

/-- The body of the while loop in main (main.rs lines 72-101): take the
last entry of the freshly computed leader window; require its QUIC
address; send; confirm; any missing piece or failure ends the iteration
without breaking. -/
def iterStep (cfg : Config) (env : IterEnv) : IterOutcome :=
  match (get_leaders env.tracker).getLast? with
  | none => IterOutcome.noLeader
  | some leader =>
    match leader.tpu_quic with
    | none => IterOutcome.noQuic leader
    | some _ =>
      match send_transaction cfg env.latest_blockhash env.sendOutcome with
      | Except.error e => IterOutcome.sendFailed leader e
      | Except.ok signature =>
        match (check_confirm_transaction env.statusResponses).1 with
        | Except.ok _ => IterOutcome.success leader signature
        | Except.error e => IterOutcome.confirmFailed leader e

/-- Terminal outcome of the orchestrator: confirmation reached after some
attempts, or the attempt budget exhausted. -/
inductive MainResult where
  | done (attempts : Nat) (leader : RpcContactInfo) (sig : TxSignature)
  | exhausted (attempts : Nat)
deriving DecidableEq, Repr

/-- The while loop of main (lines 70-104), with the remaining budget
retry - attempts as structural fuel: a confirmed iteration breaks with the
current attempt count; every other iteration increments attempts. -/
def mainLoopFrom (cfg : Config) (envs : Nat → IterEnv) : Nat → Nat → MainResult
  | 0, attempts => MainResult.exhausted attempts
  | fuel + 1, attempts =>
    match iterStep cfg (envs attempts) with
    | IterOutcome.success leader sig => MainResult.done attempts leader sig
    | _ => mainLoopFrom cfg envs fuel (attempts + 1)

/-- The whole orchestrator loop: attempts runs from 0 while below
config.retry. -/
def run_main (cfg : Config) (envs : Nat → IterEnv) : MainResult :=
  mainLoopFrom cfg envs cfg.retry 0

/-- True exactly on the iteration outcome that breaks the loop. -/
def isSuccess : IterOutcome → Bool
  | IterOutcome.success _ _ => true
  | _ => false

/-- The leader an iteration chose, if it got that far. -/
def chosen_leader : IterOutcome → Option RpcContactInfo
  | IterOutcome.noLeader => none
  | IterOutcome.noQuic leader => some leader
  | IterOutcome.sendFailed leader _ => some leader
  | IterOutcome.confirmFailed leader _ => some leader
  | IterOutcome.success leader _ => some leader

/-- Whether the iteration reached the send_transaction call. -/
def submissionAttempted : IterOutcome → Bool
  | IterOutcome.sendFailed _ _ => true
  | IterOutcome.confirmFailed _ _ => true
  | IterOutcome.success _ _ => true
  | _ => false

/-! ## Concrete inputs used by the witness theorems -/

def contactA : RpcContactInfo := { pubkey := "A", tpu_quic := some "10.0.0.1:8009" }

def contactB : RpcContactInfo := { pubkey := "B", tpu_quic := none }

def contactX : RpcContactInfo := { pubkey := "X", tpu_quic := some "10.0.0.3:8009" }

/-- A small tracker state: leader A holds slots 10 and 11, B holds 12. -/
def stW : TrackerState :=
  { curSlot := 10
    curLeaders := [(10, contactA), (11, contactA), (12, contactB)]
    numLeaders := 2
    leaderOffset := 0 }

/-- A tracker state for the purge witness: one stale entry at slot 0. -/
def stPurge : TrackerState :=
  { curSlot := 2
    curLeaders := [(0, contactA), (3, contactB)]
    numLeaders := 1
    leaderOffset := 0 }

/-- The state poll_slot_leaders_once produces from stPurge when the RPC
reports leader X for the current slot. -/
def stPurged : TrackerState :=
  { curSlot := 2
    curLeaders := [(3, contactB), (2, contactX)]
    numLeaders := 1
    leaderOffset := 0 }

/-- A tracker state whose schedule cache is empty. -/
def stEmpty : TrackerState :=
  { curSlot := 0, curLeaders := [], numLeaders := 4, leaderOffset := 0 }

def cfgW : Config :=
  { sender_key := "S", receiver_key := "R", amount := 1000, retry := 1
    network := Network.mainnet }

/-- The confirmation-poller scenario from the specification: the
transaction is invisible for the first nine polls and confirmed on the
tenth. -/
def scenarioResponses (i : Nat) : StatusResponse :=
  if i < 9 then StatusResponse.ok [none]
  else StatusResponse.ok [some { confirmations := some 1 }]

/-- Status responses that never confirm. -/
def neverConfirmed (_ : Nat) : StatusResponse := StatusResponse.ok [none]

/-- An iteration environment whose leader window is empty. -/
def envEmpty : IterEnv :=
  { tracker := stEmpty
    latest_blockhash := Except.ok 7
    sendOutcome := SendOutcome.sent
    statusResponses := neverConfirmed }

/-- A family of iteration environments, all with an empty window. -/
def envsEmpty (_ : Nat) : IterEnv := envEmpty

/-! ## C1: slot clock monotonicity -/

/-- C1 counterexample: delivering the update sequence [5, 3] to a clock
initialized at 0 leaves the clock at 3, the last value delivered, not at
the maximum 5; the out-of-order lower update regresses the clock. -/
theorem slot_clock_not_monotonic :
    runSlotUpdates 0 [5, 3] = 3 ∧
    runSlotUpdates 0 [5, 3] ≠ List.foldl max 0 [5, 3] ∧
    applySlotUpdate 5 3 < 5 := by
  refine ⟨rfl, ?_, by decide⟩
  decide

/-- C1 amended: the slot clock implements last-write-wins, not
max-write-wins: after any sequence of subscription updates the clock
equals the last value delivered (or the initial value when none were),
so an update carrying a lower slot does decrease the clock. -/
theorem slot_clock_last_write_wins (init : Nat) (updates : List Nat) :
    runSlotUpdates init updates = updates.getLastD init := by
  induction updates generalizing init with
  | nil => rfl
  | cons u rest ih =>
    show runSlotUpdates u rest = (u :: rest).getLastD init
    rw [ih u, List.getLastD_cons init u rest]

/-- C1 witness: the amended claim evaluated on the counterexample
sequence. -/
theorem slot_clock_last_write_wins_witness :
    runSlotUpdates 0 [5, 3] = [5, 3].getLastD 0 :=
  slot_clock_last_write_wins 0 [5, 3]

/-! ## C3: the purge after a schedule refresh -/

theorem foldl_dashRemove_eq_filter (rs : List Slot) :
    ∀ m : LeaderMap, rs.foldl dashRemove m = m.filter (fun e => decide (e.1 ∉ rs)) := by
  induction rs with
  | nil =>
    intro m
    simp [List.filter_true]
  | cons r rest ih =>
    intro m
    show rest.foldl dashRemove (dashRemove m r) = _
    rw [ih (dashRemove m r)]
    unfold dashRemove
    rw [List.filter_filter]
    apply List.filter_congr
    intro e _
    by_cases h1 : e.1 = r <;> by_cases h2 : e.1 ∈ rest <;> simp [h1, h2]

theorem clean_up_eq_filter (m : LeaderMap) (cur_slot : Slot) :
    clean_up_slot_leaders m cur_slot = m.filter (fun e => decide (cur_slot ≤ e.1)) := by
  unfold clean_up_slot_leaders
  rw [foldl_dashRemove_eq_filter]
  apply List.filter_congr
  intro e he
  apply decide_eq_decide.mpr
  constructor
  · intro hnotin
    by_contra hlt
    exact hnotin (List.mem_map.mpr ⟨e, List.mem_filter.mpr ⟨he, by simpa using Nat.lt_of_not_le hlt⟩, rfl⟩)
  · intro hle hin
    obtain ⟨x, hx, hfst⟩ := List.mem_map.mp hin
    have hx2 : x.1 < cur_slot := by simpa using (List.mem_filter.mp hx).2
    rw [hfst] at hx2
    exact absurd hle (Nat.not_le.mpr hx2)

/-- C3: when poll_slot_leaders_once completes successfully, the schedule
cache holds no entry keyed below the current slot; every entry of the
freshly filled cache with key at or above the current slot survives the
purge unchanged, and nothing else is in the purged cache. -/
theorem poll_purges_stale (st : TrackerState) (ls : List Pubkey)
    (ns : List RpcContactInfo) (st' : TrackerState)
    (h : poll_slot_leaders_once st
        { slot_leaders := Except.ok ls, cluster_nodes := Except.ok ns } = Except.ok st') :
    st'.curSlot = st.curSlot ∧
    (∀ e ∈ st'.curLeaders, st.curSlot ≤ e.1) ∧
    (∀ e ∈ insertLeaders st.curLeaders st.curSlot ls ns,
      st.curSlot ≤ e.1 → e ∈ st'.curLeaders) ∧
    (∀ e ∈ st'.curLeaders, e ∈ insertLeaders st.curLeaders st.curSlot ls ns) := by
  have hst' : st' = { st with
      curLeaders := clean_up_slot_leaders (insertLeaders st.curLeaders st.curSlot ls ns) st.curSlot } := by
    simpa [poll_slot_leaders_once] using h.symm
  subst hst'
  refine ⟨rfl, ?_, ?_, ?_⟩
  · intro e he
    rw [clean_up_eq_filter] at he
    have := (List.mem_filter.mp he).2
    simpa using this
  · intro e he hle
    rw [clean_up_eq_filter]
    exact List.mem_filter.mpr ⟨he, by simpa using hle⟩
  · intro e he
    rw [clean_up_eq_filter] at he
    exact (List.mem_filter.mp he).1

/-- C3 witness: the purge theorem applied to a concrete refresh in which
the RPC reports leader X for the current slot 2 and the cache holds a
stale entry at slot 0. -/
theorem poll_purges_stale_witness :
    stPurged.curSlot = stPurge.curSlot ∧
    (∀ e ∈ stPurged.curLeaders, stPurge.curSlot ≤ e.1) ∧
    (∀ e ∈ insertLeaders stPurge.curLeaders stPurge.curSlot ["X"] [contactX],
      stPurge.curSlot ≤ e.1 → e ∈ stPurged.curLeaders) ∧
    (∀ e ∈ stPurged.curLeaders, e ∈ insertLeaders stPurge.curLeaders stPurge.curSlot ["X"] [contactX]) :=
  poll_purges_stale stPurge ["X"] [contactX] stPurged rfl

/-! ## C2 / C4: the leader window -/

theorem imapInsert_map_fst (acc : IMap) (k : Pubkey) (v : RpcContactInfo) :
    (imapInsert acc k v).map Prod.fst =
      if k ∈ acc.map Prod.fst then acc.map Prod.fst else acc.map Prod.fst ++ [k] := by
  induction acc with
  | nil => simp [imapInsert]
  | cons e rest ih =>
    by_cases he : e.1 = k
    · simp [imapInsert, he]
    · have hne : ¬ k = e.1 := fun h => he h.symm
      by_cases hk : k ∈ rest.map Prod.fst <;>
        simp [imapInsert, he, ih, hk, List.mem_cons, hne]

theorem imapInsert_length (acc : IMap) (k : Pubkey) (v : RpcContactInfo) :
    (imapInsert acc k v).length =
      if k ∈ acc.map Prod.fst then acc.length else acc.length + 1 := by
  have h := congrArg List.length (imapInsert_map_fst acc k v)
  by_cases hk : k ∈ acc.map Prod.fst <;> simpa [hk] using h

theorem mem_imapInsert (k : Pubkey) (v : RpcContactInfo) :
    ∀ (acc : IMap) (e : Pubkey × RpcContactInfo),
      e ∈ imapInsert acc k v → e = (k, v) ∨ e ∈ acc := by
  intro acc
  induction acc with
  | nil => intro e he; simpa [imapInsert] using he
  | cons a rest ih =>
    intro e he
    by_cases ha : a.1 = k
    · simp only [imapInsert, if_pos ha, List.mem_cons] at he
      rcases he with he | he
      · exact Or.inl he
      · exact Or.inr (List.mem_cons_of_mem a he)
    · simp only [imapInsert, if_neg ha, List.mem_cons] at he
      rcases he with he | he
      · exact Or.inr (he ▸ List.mem_cons_self a rest)
      · rcases ih e he with h | h
        · exact Or.inl h
        · exact Or.inr (List.mem_cons_of_mem a h)

theorem dedupAcc_extends (l : List Pubkey) :
    ∀ ks : List Pubkey, ∃ t, dedupAcc ks l = ks ++ t := by
  induction l with
  | nil => intro ks; exact ⟨[], by simp [dedupAcc]⟩
  | cons p rest ih =>
    intro ks
    by_cases hp : p ∈ ks
    · obtain ⟨t, ht⟩ := ih ks
      exact ⟨t, by simp [dedupAcc, hp, ht]⟩
    · obtain ⟨t, ht⟩ := ih (ks ++ [p])
      exact ⟨p :: t, by simp [dedupAcc, hp, ht]⟩

theorem dedupAcc_nodup (l : List Pubkey) :
    ∀ ks : List Pubkey, ks.Nodup → (dedupAcc ks l).Nodup := by
  induction l with
  | nil => intro ks h; simpa [dedupAcc] using h
  | cons p rest ih =>
    intro ks h
    by_cases hp : p ∈ ks
    · simpa [dedupAcc, hp] using ih ks h
    · have hcat : (ks ++ [p]).Nodup := by
        rw [List.nodup_append]
        exact ⟨h, List.nodup_singleton p, by simpa [List.disjoint_singleton] using hp⟩
      simpa [dedupAcc, hp] using ih (ks ++ [p]) hcat

theorem loop_keyed (m : LeaderMap) (n : Nat) :
    ∀ (slots : List Slot) (acc : IMap), (∀ e ∈ acc, e.1 = e.2.pubkey) →
      ∀ e ∈ getLeadersLoop m n slots acc, e.1 = e.2.pubkey := by
  intro slots
  induction slots with
  | nil => intro acc hacc e he; exact hacc e he
  | cons s rest ih =>
    intro acc hacc e he
    have hstep : ∀ e ∈ stepAcc m s acc, e.1 = e.2.pubkey := by
      intro x hx
      unfold stepAcc at hx
      cases hd : dashGet m s with
      | none => rw [hd] at hx; exact hacc x hx
      | some c =>
        rw [hd] at hx
        rcases mem_imapInsert c.pubkey c acc x hx with h | h
        · rw [h]
        · exact hacc x h
    simp only [getLeadersLoop] at he
    by_cases hbr : n ≤ (stepAcc m s acc).length
    · rw [if_pos hbr] at he; exact hstep e he
    · rw [if_neg hbr] at he; exact ih (stepAcc m s acc) hstep e he

theorem loop_keys (m : LeaderMap) (n : Nat) :
    ∀ (slots : List Slot) (acc : IMap), acc.length < n →
      (getLeadersLoop m n slots acc).map Prod.fst =
        (dedupAcc (acc.map Prod.fst) (scanPubkeys m slots)).take n := by
  intro slots
  induction slots with
  | nil =>
    intro acc hlen
    simp only [getLeadersLoop, scanPubkeys, List.filterMap_nil, dedupAcc]
    exact (List.take_of_length_le (by simpa using Nat.le_of_lt hlen)).symm
  | cons s rest ih =>
    intro acc hlen
    cases hd : dashGet m s with
    | none =>
      have hstep : stepAcc m s acc = acc := by simp [stepAcc, hd]
      have hscan : scanPubkeys m (s :: rest) = scanPubkeys m rest := by
        simp [scanPubkeys, List.filterMap_cons, hd]
      simp only [getLeadersLoop, hstep, hscan]
      rw [if_neg (by omega)]
      exact ih acc hlen
    | some c =>
      have hstep : stepAcc m s acc = imapInsert acc c.pubkey c := by simp [stepAcc, hd]
      have hscan : scanPubkeys m (s :: rest) = c.pubkey :: scanPubkeys m rest := by
        simp [scanPubkeys, List.filterMap_cons, hd]
      by_cases hk : c.pubkey ∈ acc.map Prod.fst
      · have hkeys : (imapInsert acc c.pubkey c).map Prod.fst = acc.map Prod.fst := by
          rw [imapInsert_map_fst, if_pos hk]
        have hlen2 : (imapInsert acc c.pubkey c).length = acc.length := by
          rw [imapInsert_length, if_pos hk]
        simp only [getLeadersLoop, hstep, hscan]
        rw [if_neg (by omega)]
        rw [ih (imapInsert acc c.pubkey c) (by omega), hkeys]
        simp only [dedupAcc]
        rw [if_pos hk]
      · have hkeys : (imapInsert acc c.pubkey c).map Prod.fst =
            acc.map Prod.fst ++ [c.pubkey] := by
          rw [imapInsert_map_fst, if_neg hk]
        have hlen2 : (imapInsert acc c.pubkey c).length = acc.length + 1 := by
          rw [imapInsert_length, if_neg hk]
        simp only [getLeadersLoop, hstep, hscan]
        simp only [dedupAcc]
        rw [if_neg hk]
        by_cases hbreak : n ≤ acc.length + 1
        · rw [if_pos (by omega)]
          rw [hkeys]
          obtain ⟨t, ht⟩ := dedupAcc_extends (scanPubkeys m rest) (acc.map Prod.fst ++ [c.pubkey])
          rw [ht]
          have hlenks : (acc.map Prod.fst ++ [c.pubkey]).length = n := by
            simp
            omega
          rw [← hlenks]
          exact (List.take_left _ _).symm
        · rw [if_neg (by omega)]
          rw [ih (imapInsert acc c.pubkey c) (by omega), hkeys]

theorem startSlot_lt (st : TrackerState) : startSlot st < U64 :=
  Nat.mod_lt _ (by unfold U64; positivity)

theorem get_leaders_pubkeys (st : TrackerState) :
    (get_leaders st).map (fun c => c.pubkey) =
      (dedupAcc [] (scanPubkeys st.curLeaders (scanSlots st))).take st.numLeaders := by
  rcases Nat.eq_zero_or_pos st.numLeaders with h0 | hpos
  · have hscan : scanSlots st = [] := by
      unfold scanSlots endSlot
      rw [h0]
      simp [Nat.mod_eq_of_lt (startSlot_lt st)]
    rw [hscan]
    simp [get_leaders, getLeadersLoop, hscan, h0, scanPubkeys, dedupAcc]
  · have hkeys := loop_keys st.curLeaders st.numLeaders (scanSlots st) [] (by simpa using hpos)
    have hkeyed := loop_keyed st.curLeaders st.numLeaders (scanSlots st) [] (by simp)
    unfold get_leaders
    rw [List.map_map]
    have hcongr :
        (getLeadersLoop st.curLeaders st.numLeaders (scanSlots st) []).map
            ((fun c => c.pubkey) ∘ Prod.snd) =
          (getLeadersLoop st.curLeaders st.numLeaders (scanSlots st) []).map Prod.fst :=
      List.map_congr_left (fun e he => ((hkeyed e he)).symm)
    rw [hcongr]
    simpa using hkeys

/-- C2: for every cache state (with the scanned slot range not wrapping
the u64 space), the window returned by get_leaders has pairwise distinct
pubkeys, and its pubkey sequence is exactly the first-occurrence
deduplication of the cache hits met while scanning the slots
current_slot + offset, current_slot + offset + 1, ... in increasing
order, truncated to num_leaders — so entries come from that scan in
non-decreasing slot order, keeping the order of first occurrence. -/
theorem get_leaders_distinct (st : TrackerState)
    (h : st.curSlot + i64ToU64 st.leaderOffset +
        st.numLeaders * NUM_LEADERS_PER_SLOT < U64) :
    ((get_leaders st).map (fun c => c.pubkey)).Nodup ∧
    (get_leaders st).map (fun c => c.pubkey) =
      (dedupAcc [] (scanPubkeys st.curLeaders
        (List.range' (st.curSlot + i64ToU64 st.leaderOffset)
          (st.numLeaders * NUM_LEADERS_PER_SLOT)))).take st.numLeaders := by
  have hoff := h
  unfold U64 at hoff
  have hs : startSlot st = st.curSlot + i64ToU64 st.leaderOffset := by
    unfold startSlot U64
    exact Nat.mod_eq_of_lt (by omega)
  have he : endSlot st =
      st.curSlot + i64ToU64 st.leaderOffset + st.numLeaders * NUM_LEADERS_PER_SLOT := by
    unfold endSlot U64
    rw [hs]
    exact Nat.mod_eq_of_lt (by omega)
  have hscan : scanSlots st =
      List.range' (st.curSlot + i64ToU64 st.leaderOffset)
        (st.numLeaders * NUM_LEADERS_PER_SLOT) := by
    unfold scanSlots
    rw [hs, he]
    congr 1
    omega
  constructor
  · rw [get_leaders_pubkeys st]
    exact (List.take_sublist _ _).nodup (dedupAcc_nodup _ [] List.nodup_nil)
  · rw [get_leaders_pubkeys st, hscan]

/-- C2 witness: the window theorem on a cache in which leader A holds
slots 10 and 11 and leader B holds slot 12, at current slot 10 with
offset 0 and a requested window of 2. -/
theorem get_leaders_distinct_witness :
    ((get_leaders stW).map (fun c => c.pubkey)).Nodup ∧
    (get_leaders stW).map (fun c => c.pubkey) =
      (dedupAcc [] (scanPubkeys stW.curLeaders
        (List.range' (stW.curSlot + i64ToU64 stW.leaderOffset)
          (stW.numLeaders * NUM_LEADERS_PER_SLOT)))).take stW.numLeaders :=
  get_leaders_distinct stW (by decide)

/-- C4: get_leaders scans exactly the num_leaders * NUM_LEADERS_PER_SLOT
slots from start_slot (with NUM_LEADERS_PER_SLOT = 4), returns at most
num_leaders contacts — the first num_leaders distinct pubkeys found — and
when the scanned range holds fewer distinct leaders it returns that
partial, possibly empty, list of all of them (it is a total function:
no blocking, no error). -/
theorem get_leaders_scan_window (st : TrackerState)
    (h : st.curSlot + i64ToU64 st.leaderOffset +
        st.numLeaders * NUM_LEADERS_PER_SLOT < U64) :
    scanSlots st =
      List.range' (st.curSlot + i64ToU64 st.leaderOffset)
        (st.numLeaders * NUM_LEADERS_PER_SLOT) ∧
    NUM_LEADERS_PER_SLOT = 4 ∧
    (get_leaders st).length ≤ st.numLeaders ∧
    ((dedupAcc [] (scanPubkeys st.curLeaders (scanSlots st))).length ≤ st.numLeaders →
      (get_leaders st).map (fun c => c.pubkey) =
        dedupAcc [] (scanPubkeys st.curLeaders (scanSlots st))) := by
  have hoff := h
  unfold U64 at hoff
  have hs : startSlot st = st.curSlot + i64ToU64 st.leaderOffset := by
    unfold startSlot U64
    exact Nat.mod_eq_of_lt (by omega)
  have he : endSlot st =
      st.curSlot + i64ToU64 st.leaderOffset + st.numLeaders * NUM_LEADERS_PER_SLOT := by
    unfold endSlot U64
    rw [hs]
    exact Nat.mod_eq_of_lt (by omega)
  refine ⟨?_, rfl, ?_, ?_⟩
  · unfold scanSlots
    rw [hs, he]
    congr 1
    omega
  · have hlen : (get_leaders st).length =
        ((get_leaders st).map (fun c => c.pubkey)).length := by
      rw [List.length_map]
    rw [hlen, get_leaders_pubkeys st, List.length_take]
    exact Nat.min_le_left _ _
  · intro hfew
    rw [get_leaders_pubkeys st]
    exact List.take_of_length_le hfew

/-- C4 witness: the scan-window theorem on an empty cache with a window
request of 4 at current slot 0: the scan covers 16 slots and the window
degrades to the empty list. -/
theorem get_leaders_scan_window_witness :
    scanSlots stEmpty =
      List.range' (stEmpty.curSlot + i64ToU64 stEmpty.leaderOffset)
        (stEmpty.numLeaders * NUM_LEADERS_PER_SLOT) ∧
    NUM_LEADERS_PER_SLOT = 4 ∧
    (get_leaders stEmpty).length ≤ stEmpty.numLeaders ∧
    ((dedupAcc [] (scanPubkeys stEmpty.curLeaders (scanSlots stEmpty))).length ≤ stEmpty.numLeaders →
      (get_leaders stEmpty).map (fun c => c.pubkey) =
        dedupAcc [] (scanPubkeys stEmpty.curLeaders (scanSlots stEmpty))) :=
  get_leaders_scan_window stEmpty (by decide)

/-! ## C5 / C10: the confirmation poller -/

theorem check_loop_skip (responses : Nat → StatusResponse) (fuel i slept : Nat)
    (h : keepPollingB (responses i) = true) :
    check_confirm_loop responses (fuel + 1) i slept =
      check_confirm_loop responses fuel (i + 1) (slept + 2) := by
  cases hri : responses i with
  | rpcError e => rw [hri] at h; simp [keepPollingB] at h
  | ok value =>
    rw [hri] at h
    cases hv : value.head? with
    | none => simp only [check_confirm_loop, hri, hv]
    | some os =>
      cases os with
      | none => simp only [check_confirm_loop, hri, hv]
      | some status =>
        have hnone : status.confirmations.isSome = false := by
          simp only [keepPollingB, hv] at h
          simpa [Option.isNone_iff_eq_none, Option.isSome_iff_exists] using h
        simp only [check_confirm_loop, hri, hv, hnone]
        simp

theorem check_loop_confirmed (responses : Nat → StatusResponse) (fuel i slept : Nat)
    (h : confirmedB (responses i) = true) :
    check_confirm_loop responses (fuel + 1) i slept = (Except.ok true, slept) := by
  cases hri : responses i with
  | rpcError e => rw [hri] at h; simp [confirmedB] at h
  | ok value =>
    rw [hri] at h
    cases hv : value.head? with
    | none => simp [confirmedB, hv] at h
    | some os =>
      cases os with
      | none => simp [confirmedB, hv] at h
      | some status =>
        have hsome : status.confirmations.isSome = true := by
          simpa [confirmedB, hv] using h
        simp only [check_confirm_loop, hri, hv, hsome]
        simp

theorem check_loop_confirm_after (responses : Nat → StatusResponse) :
    ∀ (d fuel i slept : Nat), d < fuel →
      (∀ j, j < d → keepPollingB (responses (i + j)) = true) →
      confirmedB (responses (i + d)) = true →
      check_confirm_loop responses fuel i slept = (Except.ok true, slept + 2 * d) := by
  intro d
  induction d with
  | zero =>
    intro fuel i slept hfuel _ hconf
    cases fuel with
    | zero => omega
    | succ f =>
      rw [check_loop_confirmed responses f i slept (by simpa using hconf)]
      simp
  | succ d ih =>
    intro fuel i slept hfuel hpoll hconf
    cases fuel with
    | zero => omega
    | succ f =>
      rw [check_loop_skip responses f i slept (by simpa using hpoll 0 (by omega))]
      have heq : slept + 2 * (d + 1) = slept + 2 + 2 * d := by omega
      rw [heq]
      apply ih f (i + 1) (slept + 2) (by omega)
      · intro j hj
        have := hpoll (j + 1) (by omega)
        simpa [Nat.add_assoc, Nat.add_comm 1 j] using this
      · have := hconf
        simpa [Nat.add_assoc, Nat.add_comm 1 d] using this

theorem check_loop_all_polling (responses : Nat → StatusResponse) :
    ∀ (fuel i slept : Nat),
      (∀ j, j < fuel → keepPollingB (responses (i + j)) = true) →
      check_confirm_loop responses fuel i slept =
        (Except.error "Transaction failed to confirm", slept + 2 * fuel) := by
  intro fuel
  induction fuel with
  | zero => intro i slept _; simp [check_confirm_loop]
  | succ f ih =>
    intro i slept hpoll
    rw [check_loop_skip responses f i slept (by simpa using hpoll 0 (by omega))]
    have heq : slept + 2 * (f + 1) = slept + 2 + 2 * f := by omega
    rw [heq]
    apply ih (i + 1) (slept + 2)
    intro j hj
    have := hpoll (j + 1) (by omega)
    simpa [Nat.add_assoc, Nat.add_comm 1 j] using this

/-- C5: the confirmation poller polls at most 10 times at a 2-second
interval.  If the first i responses (i < 10) are "keep polling" — the
transaction not yet visible, or visible without a confirmation count —
and the i-th poll reports a present confirmation count, it returns
Ok(true) having slept 2*i seconds; if all 10 polls keep polling it
returns the timeout error having slept 20 seconds.  In particular nine
invisible polls followed by a confirmed tenth succeed after 18 seconds
of sleep (see the witness). -/
theorem check_confirm_behavior (responses : Nat → StatusResponse) :
    (∀ i, i < 10 → (∀ j, j < i → keepPollingB (responses j) = true) →
      confirmedB (responses i) = true →
      check_confirm_transaction responses = (Except.ok true, 2 * i)) ∧
    ((∀ j, j < 10 → keepPollingB (responses j) = true) →
      check_confirm_transaction responses =
        (Except.error "Transaction failed to confirm", 20)) := by
  constructor
  · intro i hi hpoll hconf
    unfold check_confirm_transaction
    have := check_loop_confirm_after responses i 10 0 0 hi
      (by intro j hj; simpa using hpoll j hj) (by simpa using hconf)
    simpa using this
  · intro hpoll
    unfold check_confirm_transaction
    have := check_loop_all_polling responses 10 0 0
      (by intro j hj; simpa using hpoll j hj)
    simpa using this

/-- C5 witness: the specification scenario — status None for the first
nine polls, confirmations present on the tenth — returns success with
18 seconds of accumulated sleep. -/
theorem check_confirm_behavior_witness :
    check_confirm_transaction scenarioResponses = (Except.ok true, 2 * 9) :=
  (check_confirm_behavior scenarioResponses).1 9 (by decide) (by decide) (by decide)

theorem check_loop_never_ok_false (responses : Nat → StatusResponse) :
    ∀ (fuel i slept : Nat),
      is_ok_false (check_confirm_loop responses fuel i slept).1 = false := by
  intro fuel
  induction fuel with
  | zero => intro i slept; simp [check_confirm_loop, is_ok_false]
  | succ f ih =>
    intro i slept
    cases hri : responses i with
    | rpcError e => simp [check_confirm_loop, hri, is_ok_false]
    | ok value =>
      cases hv : value.head? with
      | none => simpa only [check_confirm_loop, hri, hv] using ih (i + 1) (slept + 2)
      | some os =>
        cases os with
        | none => simpa only [check_confirm_loop, hri, hv] using ih (i + 1) (slept + 2)
        | some status =>
          by_cases hs : status.confirmations.isSome
          · simp [check_confirm_loop, hri, hv, hs, is_ok_false]
          · simpa only [check_confirm_loop, hri, hv, Bool.of_not_eq_true hs, if_false]
              using ih (i + 1) (slept + 2)

/-- C10: the success payload of check_confirm_transaction is degenerate:
on no input does it return Ok(false) — every run ends in Ok(true) or an
error, so the boolean carries no information beyond success itself. -/
theorem check_confirm_no_ok_false (responses : Nat → StatusResponse) :
    is_ok_false (check_confirm_transaction responses).1 = false :=
  check_loop_never_ok_false responses 10 0 0

/-- C10 witness: the degenerate-payload theorem on a concrete run that
exhausts its attempts. -/
theorem check_confirm_no_ok_false_witness :
    is_ok_false (check_confirm_transaction neverConfirmed).1 = false :=
  check_confirm_no_ok_false neverConfirmed

/-! ## C8: fresh blockhash per attempt, distinct signatures -/

theorem send_transaction_ok_inv (cfg : Config) (bh : BlockHash)
    (outcome : SendOutcome) (s : TxSignature)
    (h : send_transaction cfg (Except.ok bh) outcome = Except.ok s) :
    (create_transaction cfg bh).signatures.head? = some s ∧
    s = { signer := setup_sender cfg, message_blockhash := bh } := by
  cases outcome with
  | sent =>
    simp only [send_transaction, create_transaction, List.head?] at h
    have hs : s = { signer := setup_sender cfg, message_blockhash := bh } := by
      simpa using h.symm
    exact ⟨by simp [create_transaction, hs], hs⟩
  | sendError e => simp [send_transaction] at h
  | timedOut => simp [send_transaction] at h

/-- C8: each send_transaction call signs against the blockhash fetched
inside that same call, and on success returns the first signature of the
signed transaction itself; hence two submissions of the same logical
transfer that obtain distinct blockhashes return distinct transaction
identifiers. -/
theorem send_transaction_fresh_signature (cfg : Config) (bh1 bh2 : BlockHash)
    (o1 o2 : SendOutcome) (s1 s2 : TxSignature)
    (h1 : send_transaction cfg (Except.ok bh1) o1 = Except.ok s1)
    (h2 : send_transaction cfg (Except.ok bh2) o2 = Except.ok s2)
    (hne : bh1 ≠ bh2) :
    (create_transaction cfg bh1).signatures.head? = some s1 ∧
    (create_transaction cfg bh2).signatures.head? = some s2 ∧
    s1 ≠ s2 := by
  obtain ⟨hh1, hs1⟩ := send_transaction_ok_inv cfg bh1 o1 s1 h1
  obtain ⟨hh2, hs2⟩ := send_transaction_ok_inv cfg bh2 o2 s2 h2
  refine ⟨hh1, hh2, ?_⟩
  rw [hs1, hs2]
  intro hcontra
  exact hne (congrArg TxSignature.message_blockhash hcontra)

/-- C8 witness: two successful sends of the configured transfer against
blockhashes 1 and 2 return the first signatures of their respective
transactions, and those identifiers differ. -/
theorem send_transaction_fresh_signature_witness :
    (create_transaction cfgW 1).signatures.head? =
        some { signer := "S", message_blockhash := 1 } ∧
    (create_transaction cfgW 2).signatures.head? =
        some { signer := "S", message_blockhash := 2 } ∧
    ({ signer := "S", message_blockhash := 1 } : TxSignature) ≠
        { signer := "S", message_blockhash := 2 } :=
  send_transaction_fresh_signature cfgW 1 2 SendOutcome.sent SendOutcome.sent
    { signer := "S", message_blockhash := 1 }
    { signer := "S", message_blockhash := 2 }
    (by rfl) (by rfl) (by decide)

/-! ## C6: retry-loop termination -/

theorem mainLoopFrom_spec (cfg : Config) (envs : Nat → IterEnv) :
    ∀ (fuel attempts : Nat),
      (∃ k leader sig, attempts ≤ k ∧ k < attempts + fuel ∧
        mainLoopFrom cfg envs fuel attempts = MainResult.done k leader sig ∧
        iterStep cfg (envs k) = IterOutcome.success leader sig ∧
        ∀ j, attempts ≤ j → j < k → isSuccess (iterStep cfg (envs j)) = false) ∨
      (mainLoopFrom cfg envs fuel attempts = MainResult.exhausted (attempts + fuel) ∧
        ∀ j, attempts ≤ j → j < attempts + fuel →
          isSuccess (iterStep cfg (envs j)) = false) := by
  intro fuel
  induction fuel with
  | zero =>
    intro attempts
    right
    exact ⟨by simp [mainLoopFrom], by omega⟩
  | succ f ih =>
    intro attempts
    cases hstep : iterStep cfg (envs attempts) with
    | success leader sig =>
      left
      exact ⟨attempts, leader, sig, Nat.le_refl _, by omega,
        by simp [mainLoopFrom, hstep], hstep, by omega⟩
    | noLeader =>
      have hrec : mainLoopFrom cfg envs (f + 1) attempts =
          mainLoopFrom cfg envs f (attempts + 1) := by
        simp [mainLoopFrom, hstep]
      rcases ih (attempts + 1) with ⟨k, leader, sig, hk1, hk2, hres, hsucc, hprev⟩ | ⟨hres, hprev⟩
      · left
        refine ⟨k, leader, sig, by omega, by omega, by rw [hrec]; exact hres, hsucc, ?_⟩
        intro j hj1 hj2
        rcases Nat.eq_or_lt_of_le hj1 with hj | hj
        · rw [← hj, hstep]; rfl
        · exact hprev j (by omega) hj2
      · right
        constructor
        · rw [hrec, hres]; congr 1; omega
        · intro j hj1 hj2
          rcases Nat.eq_or_lt_of_le hj1 with hj | hj
          · rw [← hj, hstep]; rfl
          · exact hprev j (by omega) (by omega)
    | noQuic leader =>
      have hrec : mainLoopFrom cfg envs (f + 1) attempts =
          mainLoopFrom cfg envs f (attempts + 1) := by
        simp [mainLoopFrom, hstep]
      rcases ih (attempts + 1) with ⟨k, leader', sig, hk1, hk2, hres, hsucc, hprev⟩ | ⟨hres, hprev⟩
      · left
        refine ⟨k, leader', sig, by omega, by omega, by rw [hrec]; exact hres, hsucc, ?_⟩
        intro j hj1 hj2
        rcases Nat.eq_or_lt_of_le hj1 with hj | hj
        · rw [← hj, hstep]; rfl
        · exact hprev j (by omega) hj2
      · right
        constructor
        · rw [hrec, hres]; congr 1; omega
        · intro j hj1 hj2
          rcases Nat.eq_or_lt_of_le hj1 with hj | hj
          · rw [← hj, hstep]; rfl
          · exact hprev j (by omega) (by omega)
    | sendFailed leader e =>
      have hrec : mainLoopFrom cfg envs (f + 1) attempts =
          mainLoopFrom cfg envs f (attempts + 1) := by
        simp [mainLoopFrom, hstep]
      rcases ih (attempts + 1) with ⟨k, leader', sig, hk1, hk2, hres, hsucc, hprev⟩ | ⟨hres, hprev⟩
      · left
        refine ⟨k, leader', sig, by omega, by omega, by rw [hrec]; exact hres, hsucc, ?_⟩
        intro j hj1 hj2
        rcases Nat.eq_or_lt_of_le hj1 with hj | hj
        · rw [← hj, hstep]; rfl
        · exact hprev j (by omega) hj2
      · right
        constructor
        · rw [hrec, hres]; congr 1; omega
        · intro j hj1 hj2
          rcases Nat.eq_or_lt_of_le hj1 with hj | hj
          · rw [← hj, hstep]; rfl
          · exact hprev j (by omega) (by omega)
    | confirmFailed leader e =>
      have hrec : mainLoopFrom cfg envs (f + 1) attempts =
          mainLoopFrom cfg envs f (attempts + 1) := by
        simp [mainLoopFrom, hstep]
      rcases ih (attempts + 1) with ⟨k, leader', sig, hk1, hk2, hres, hsucc, hprev⟩ | ⟨hres, hprev⟩
      · left
        refine ⟨k, leader', sig, by omega, by omega, by rw [hrec]; exact hres, hsucc, ?_⟩
        intro j hj1 hj2
        rcases Nat.eq_or_lt_of_le hj1 with hj | hj
        · rw [← hj, hstep]; rfl
        · exact hprev j (by omega) hj2
      · right
        constructor
        · rw [hrec, hres]; congr 1; omega
        · intro j hj1 hj2
          rcases Nat.eq_or_lt_of_le hj1 with hj | hj
          · rw [← hj, hstep]; rfl
          · exact hprev j (by omega) (by omega)

/-- C6: the orchestrator loop always reaches a terminal outcome after at
most config.retry iterations (hence at most that many submission
attempts): either some attempt k < retry succeeds — with every earlier
iteration non-successful, the counter having advanced through each — or
all retry iterations ran without success and the loop exits exhausted. -/
theorem main_loop_terminates (cfg : Config) (envs : Nat → IterEnv) :
    (∃ k leader sig, k < cfg.retry ∧
      run_main cfg envs = MainResult.done k leader sig ∧
      iterStep cfg (envs k) = IterOutcome.success leader sig ∧
      ∀ j, j < k → isSuccess (iterStep cfg (envs j)) = false) ∨
    (run_main cfg envs = MainResult.exhausted cfg.retry ∧
      ∀ j, j < cfg.retry → isSuccess (iterStep cfg (envs j)) = false) := by
  rcases mainLoopFrom_spec cfg envs cfg.retry 0 with
    ⟨k, leader, sig, _, hk2, hres, hsucc, hprev⟩ | ⟨hres, hprev⟩
  · exact Or.inl ⟨k, leader, sig, by omega, hres, hsucc,
      fun j hj => hprev j (Nat.zero_le j) hj⟩
  · refine Or.inr ⟨by simpa using hres, fun j hj => hprev j (Nat.zero_le j) (by omega)⟩

/-- C6 witness: the termination theorem on a concrete run with retry = 1
and an empty leader window, which exhausts its single attempt. -/
theorem main_loop_terminates_witness :
    (∃ k leader sig, k < cfgW.retry ∧
      run_main cfgW envsEmpty = MainResult.done k leader sig ∧
      iterStep cfgW (envsEmpty k) = IterOutcome.success leader sig ∧
      ∀ j, j < k → isSuccess (iterStep cfgW (envsEmpty j)) = false) ∨
    (run_main cfgW envsEmpty = MainResult.exhausted cfgW.retry ∧
      ∀ j, j < cfgW.retry → isSuccess (iterStep cfgW (envsEmpty j)) = false) :=
  main_loop_terminates cfgW envsEmpty

/-! ## C7: the chosen leader is the last window entry -/

/-- C7: in every orchestrator iteration the chosen leader is the last
entry of the freshly computed leader window; when the window is empty the
iteration attempts no submission. -/
theorem iter_selects_last_leader (cfg : Config) (env : IterEnv) :
    (get_leaders env.tracker = [] →
      iterStep cfg env = IterOutcome.noLeader ∧
      submissionAttempted (iterStep cfg env) = false) ∧
    (∀ c, (get_leaders env.tracker).getLast? = some c →
      chosen_leader (iterStep cfg env) = some c) := by
  constructor
  · intro hempty
    have hlast : (get_leaders env.tracker).getLast? = none := by
      rw [hempty]; rfl
    have hstep : iterStep cfg env = IterOutcome.noLeader := by
      unfold iterStep
      rw [hlast]
    exact ⟨hstep, by rw [hstep]; rfl⟩
  · intro c hlast
    unfold iterStep
    rw [hlast]
    cases hq : c.tpu_quic with
    | none => simp [chosen_leader, hq]
    | some addr =>
      cases hs : send_transaction cfg env.latest_blockhash env.sendOutcome with
      | error e => simp [chosen_leader, hq, hs]
      | ok sig =>
        cases hc : (check_confirm_transaction env.statusResponses).1 with
        | error e2 => simp [chosen_leader, hq, hs, hc]
        | ok b => simp [chosen_leader, hq, hs, hc]

/-- C7 witness: the selection theorem applied to an iteration whose
freshly computed window is empty: no leader is chosen and no submission
happens. -/
theorem iter_selects_last_leader_witness :
    iterStep cfgW envEmpty = IterOutcome.noLeader ∧
    submissionAttempted (iterStep cfgW envEmpty) = false :=
  (iter_selects_last_leader cfgW envEmpty).1 (by rfl)

/-! ## C9: silent zero on a failed initial slot query -/

/-- C9: when the initial get_slot query fails, LeaderTrackerImpl::new
still returns a tracker (no abort, no error value) whose clock is 0 and
whose cache is empty, so until an update arrives every window computation
starts its scan at slot 0 + offset. -/
theorem new_tracker_error_defaults (e : String) (num_leaders : Nat) (off : Int)
    (h0 : 0 ≤ off) (h1 : off < 2 ^ 64) :
    (newTracker (Except.error e) num_leaders off).curSlot = 0 ∧
    (newTracker (Except.error e) num_leaders off).curLeaders = [] ∧
    startSlot (newTracker (Except.error e) num_leaders off) = off.toNat := by
  refine ⟨rfl, rfl, ?_⟩
  have hoff : i64ToU64 off = off.toNat := by
    unfold i64ToU64
    omega
  unfold startSlot newTracker initialSlot U64
  rw [hoff]
  simp only [Nat.zero_add]
  exact Nat.mod_eq_of_lt (by omega)

/-- C9 witness: a failed initial slot query with offset 0 yields clock 0,
an empty cache, and window scans starting at slot 0. -/
theorem new_tracker_error_defaults_witness :
    (newTracker (Except.error "connection refused") 4 0).curSlot = 0 ∧
    (newTracker (Except.error "connection refused") 4 0).curLeaders = [] ∧
    startSlot (newTracker (Except.error "connection refused") 4 0) = (0 : Int).toNat :=
  new_tracker_error_defaults "connection refused" 4 0 (by decide) (by decide)
